import Mathlib

/-!
Shallow embedding of the `get-data-url` library (`src/lib.rs`).

The library has two parts:
* `DataUrl` — media type, encoding flag, raw bytes — with a `Display`
  implementation rendering `data:<media_type><;base64?>,<payload>`, where the
  payload is either the bytes in URL-safe base64 without padding
  (`base64_url::encode`) or percent-encoded with every non-alphanumeric byte
  escaped (`percent_encoding::percent_encode` with `NON_ALPHANUMERIC`).
* `GetDataUrl` — a converter from an HTTP response (content-type header plus
  body bytes) to a `DataUrl`, always choosing base64, falling back to
  `application/octet-stream` when the content type is absent or unparseable,
  and a convenience function composing fetch and render.

Bytes are modelled as `Nat` with a `< 256` bound where it matters; fallible
operations return `Option` or `Except`.  The external collaborators (the HTTP
client, the header-to-text conversion and the MIME parser) are modelled as
explicit function parameters or as definitions marked `Modelled from the
spec:`.
-/

/-- Bytes of a string, for building concrete byte sequences in statements. -/
def strBytes (s : String) : List Nat := s.data.map Char.toNat

/-- Character `n` of the URL-safe base64 alphabet (`A-Z`, `a-z`, `0-9`, `-`, `_`),
as used by `base64_url::encode`. -/
def b64Char (n : Nat) : Char :=
  if n < 26 then Char.ofNat (65 + n)
  else if n < 52 then Char.ofNat (97 + (n - 26))
  else if n < 62 then Char.ofNat (48 + (n - 52))
  else if n = 62 then Char.ofNat 45
  else Char.ofNat 95

/-- URL-safe base64 encoding without padding (`base64_url::encode`): groups of
three bytes become four alphabet characters; a final group of one or two bytes
becomes two or three characters and no `=` padding is emitted. -/
def b64EncodeRec : List Nat → List Char
  | [] => []
  | [b1] => [b64Char (b1 / 4), b64Char (b1 % 4 * 16)]
  | [b1, b2] => [b64Char (b1 / 4), b64Char (b1 % 4 * 16 + b2 / 16), b64Char (b2 % 16 * 4)]
  | b1 :: b2 :: b3 :: rest =>
      b64Char (b1 / 4) :: b64Char (b1 % 4 * 16 + b2 / 16) ::
      b64Char (b2 % 16 * 4 + b3 / 64) :: b64Char (b3 % 64) :: b64EncodeRec rest

/-- Value of a URL-safe base64 alphabet character, `none` off the alphabet. -/
def b64DecodeChar (c : Char) : Option Nat :=
  let n := c.toNat
  if 65 ≤ n ∧ n ≤ 90 then some (n - 65)
  else if 97 ≤ n ∧ n ≤ 122 then some (n - 97 + 26)
  else if 48 ≤ n ∧ n ≤ 57 then some (n - 48 + 52)
  else if n = 45 then some 62
  else if n = 95 then some 63
  else none

/-- Decoder for unpadded URL-safe base64: the inverse direction used to state
the payload round-trip property. -/
def b64DecodeRec : List Char → Option (List Nat)
  | [] => some []
  | [_] => none
  | [c1, c2] =>
      (b64DecodeChar c1).bind fun v1 =>
      (b64DecodeChar c2).bind fun v2 =>
      some [v1 * 4 + v2 / 16]
  | [c1, c2, c3] =>
      (b64DecodeChar c1).bind fun v1 =>
      (b64DecodeChar c2).bind fun v2 =>
      (b64DecodeChar c3).bind fun v3 =>
      some [v1 * 4 + v2 / 16, v2 % 16 * 16 + v3 / 4]
  | c1 :: c2 :: c3 :: c4 :: rest =>
      (b64DecodeChar c1).bind fun v1 =>
      (b64DecodeChar c2).bind fun v2 =>
      (b64DecodeChar c3).bind fun v3 =>
      (b64DecodeChar c4).bind fun v4 =>
      (b64DecodeRec rest).bind fun bs =>
      some ((v1 * 4 + v2 / 16) :: (v2 % 16 * 16 + v3 / 4) :: (v3 % 4 * 64 + v4) :: bs)

/-- ASCII alphanumeric test on a byte: the complement of the
`percent_encoding::NON_ALPHANUMERIC` escape set. -/
def isAsciiAlphanumeric (b : Nat) : Bool :=
  (48 ≤ b && b ≤ 57) || (65 ≤ b && b ≤ 90) || (97 ≤ b && b ≤ 122)

/-- Uppercase hexadecimal digit character, as emitted by `percent_encoding`. -/
def hexDigit (n : Nat) : Char :=
  if n < 10 then Char.ofNat (48 + n) else Char.ofNat (55 + n)

/-- Percent-encoding of one byte: alphanumeric bytes pass through, every other
byte becomes `%XX` with uppercase hex digits. -/
def percentEncodeByte (b : Nat) : List Char :=
  if isAsciiAlphanumeric b then [Char.ofNat b]
  else ['%', hexDigit (b / 16), hexDigit (b % 16)]

/-- `percent_encoding::percent_encode(data, NON_ALPHANUMERIC).to_string()`:
byte-wise percent-encoding of the whole sequence. -/
def percentEncodeList (data : List Nat) : List Char := data.flatMap percentEncodeByte

/-- Value of an uppercase hexadecimal digit character. -/
def hexVal (c : Char) : Option Nat :=
  let n := c.toNat
  if 48 ≤ n ∧ n ≤ 57 then some (n - 48)
  else if 65 ≤ n ∧ n ≤ 70 then some (n - 55)
  else none

/-- Uppercase hexadecimal digit test. -/
def isHexUpper (c : Char) : Bool :=
  (48 ≤ c.toNat && c.toNat ≤ 57) || (65 ≤ c.toNat && c.toNat ≤ 70)

/-- Percent-decoding: the inverse direction used to state the payload
round-trip property; accepts alphanumeric characters and `%XX` escapes. -/
def percentDecode : List Char → Option (List Nat)
  | [] => some []
  | c :: rest =>
    if isAsciiAlphanumeric c.toNat then (percentDecode rest).map (c.toNat :: ·)
    else if c.toNat = 37 then
      match rest with
      | c1 :: c2 :: rest2 =>
          (hexVal c1).bind fun h1 =>
          (hexVal c2).bind fun h2 =>
          (percentDecode rest2).map ((h1 * 16 + h2) :: ·)
      | _ => none
    else none

/-- Syntactic well-formedness of a percent-encoded payload: every character is
either ASCII alphanumeric or part of a `%XX` escape with uppercase hex. -/
def wellFormedPercent : List Char → Bool
  | [] => true
  | c :: rest =>
    if isAsciiAlphanumeric c.toNat then wellFormedPercent rest
    else if c.toNat = 37 then
      match rest with
      | c1 :: c2 :: rest2 => isHexUpper c1 && isHexUpper c2 && wellFormedPercent rest2
      | _ => false
    else false

/-- The `DataUrl` struct of `src/lib.rs`: media type, encoding flag, bytes. -/
structure DataUrl where
  media_type : String
  base64_encoded : Bool
  data : List Nat

/-- `DataUrl::new`: plain construction, no validation of the media type. -/
def DataUrl.new (media_type : String) (data : List Nat) (base64_encoded : Bool) : DataUrl :=
  { media_type := media_type, base64_encoded := base64_encoded, data := data }

/-- The payload computed by the `Display` implementation: base64url without
padding when the flag is set, percent-encoding otherwise. -/
def payloadChars (u : DataUrl) : List Char :=
  if u.base64_encoded then b64EncodeRec u.data else percentEncodeList u.data

/-- The `Display` implementation of `DataUrl`:
`write!(f, "data:{}{},{}", media_type, encoding, data)` with
`encoding = ";base64"` or `""` and the payload as above. -/
def DataUrl.to_string (u : DataUrl) : String :=
  "data:" ++ u.media_type ++ (if u.base64_encoded then ";base64" else "") ++ "," ++
    String.mk (payloadChars u)

/-- Everything after the first comma of a character list (empty if none). -/
def afterFirstComma : List Char → List Char
  | [] => []
  | c :: rest => if c = ',' then rest else afterFirstComma rest

/-- Everything before the first comma of a character list. -/
def beforeFirstComma : List Char → List Char
  | [] => []
  | c :: rest => if c = ',' then [] else c :: beforeFirstComma rest

/-- The "payload part" of a rendered data URL in the sense of the spec:
the text after the first comma. -/
def payloadPart (s : String) : List Char := afterFirstComma s.data

/-- The opaque transport error re-exported from the HTTP client
(`pub use reqwest::Error`). -/
inductive ReqError where
  | transport (msg : String)
deriving DecidableEq

/-- An already-received HTTP response, as far as `response_to_data_url`
observes it: the raw bytes of the `Content-Type` header (absent allowed) and
the body read, which may itself fail with a transport error. -/
structure HttpResponse where
  content_type : Option (List Nat)
  body : Except ReqError (List Nat)

/-- `GetDataUrl::response_to_data_url`.  The two external collaborators are
passed as functions: `toStr` models `HeaderValue::to_str().ok()` and
`parseMime` models `str::parse::<Mime>().ok().map(|m| m.to_string())`.
The content type falls back to `"application/octet-stream"` when the header is
absent or either collaborator rejects it; the body bytes are taken whole and
the `DataUrl` is built with `base64_encoded` unconditionally `true`. -/
def response_to_data_url (toStr : List Nat → Option String)
    (parseMime : String → Option String) (resp : HttpResponse) :
    Except ReqError DataUrl :=
  let content_type :=
    ((resp.content_type.bind toStr).bind parseMime).getD "application/octet-stream"
  match resp.body with
  | Except.error e => Except.error e
  | Except.ok bytes => Except.ok (DataUrl.new content_type bytes true)

/-- The `GetDataUrl` converter struct; its `reqwest::Client` is modelled as the
function from a URL to the network outcome of a GET request. -/
structure GetDataUrl where
  client : String → Except ReqError HttpResponse

/-- `GetDataUrl::new` (the default `Client::new()` is the ambient network
behaviour, passed in explicitly). -/
def GetDataUrl.new (client : String → Except ReqError HttpResponse) : GetDataUrl :=
  { client := client }

/-- `GetDataUrl::with_client`. -/
def GetDataUrl.with_client (client : String → Except ReqError HttpResponse) : GetDataUrl :=
  { client := client }

/-- `GetDataUrl::fetch`: issue the GET, propagate its error with `?`, then
convert the response. -/
def GetDataUrl.fetch (g : GetDataUrl) (toStr : List Nat → Option String)
    (parseMime : String → Option String) (url : String) : Except ReqError DataUrl :=
  match g.client url with
  | Except.error e => Except.error e
  | Except.ok resp => response_to_data_url toStr parseMime resp

/-- The free function `url_to_data_url`: build a default converter, fetch,
propagate the error with `?`, and render the result. -/
def url_to_data_url (toStr : List Nat → Option String)
    (parseMime : String → Option String)
    (client : String → Except ReqError HttpResponse) (url : String) :
    Except ReqError String :=
  let converter := GetDataUrl.new client
  match converter.fetch toStr parseMime url with
  | Except.error e => Except.error e
  | Except.ok data_url => Except.ok data_url.to_string

/-- The spec's description of `url_to_data_url`: the plain composition of
constructing a default converter, fetching, and rendering, with nothing
added.  Stated from the spec's words, to be compared with the definition
above. -/
def url_to_data_url_spec (toStr : List Nat → Option String)
    (parseMime : String → Option String)
    (client : String → Except ReqError HttpResponse) (url : String) :
    Except ReqError String :=
  ((GetDataUrl.new client).fetch toStr parseMime url).map DataUrl.to_string

/-- Modelled from the spec: the conversion of raw `Content-Type` header bytes
to text (`HeaderValue::to_str`, part of the external HTTP client, absent from
`src/`) — succeeds exactly on visible-ASCII byte sequences. -/
def headerToStr (bs : List Nat) : Option String :=
  if bs.all (fun b => 32 ≤ b && b < 127) then some (String.mk (bs.map Char.ofNat))
  else none

/-- MIME token character (letters, digits and the usual token punctuation). -/
def isTokenCharNat (n : Nat) : Bool :=
  isAsciiAlphanumeric n ||
    [33, 35, 36, 37, 38, 39, 42, 43, 45, 46, 94, 95, 96, 124, 126].contains n

/-- Split a character list at its first `/`, if any. -/
def splitSlash : List Char → Option (List Char × List Char)
  | [] => none
  | c :: rest =>
    if c = '/' then some ([], rest)
    else (splitSlash rest).map (fun p => (c :: p.1, p.2))

/-- Modelled from the spec: the external MIME parser (the `mime` crate, absent
from `src/`) composed with its renderer — accepts a `type/subtype` value with
optional `;`-separated parameters and renders it back. -/
def parseMimeModel (s : String) : Option String :=
  let essence := s.data.takeWhile (fun c => c.toNat ≠ 59)
  match splitSlash essence with
  | some (t, sub) =>
      if !t.isEmpty && !sub.isEmpty &&
          t.all (fun c => isTokenCharNat c.toNat) &&
          sub.all (fun c => isTokenCharNat c.toNat) then
        some s
      else none
  | none => none

/-! ### Helper lemmas -/

theorem toNat_ofNat256 (b : Nat) (h : b < 256) : (Char.ofNat b).toNat = b := by
  have hv : Nat.isValidChar b := Or.inl (by omega)
  simp [Char.ofNat, hv, Char.toNat, Char.ofNatAux, UInt32.toNat, BitVec.toNat_ofNatLt]

theorem b64DecodeChar_b64Char : ∀ v < 64, b64DecodeChar (b64Char v) = some v := by decide

theorem b64_decode_encode :
    ∀ (l : List Nat), (∀ b ∈ l, b < 256) → b64DecodeRec (b64EncodeRec l) = some l
  | [], _ => by simp [b64EncodeRec, b64DecodeRec]
  | [b1], h => by
      have hb1 : b1 < 256 := h b1 (by simp)
      have e1 := b64DecodeChar_b64Char (b1 / 4) (by omega)
      have e2 := b64DecodeChar_b64Char (b1 % 4 * 16) (by omega)
      simp [b64EncodeRec, b64DecodeRec, e1, e2]
      omega
  | [b1, b2], h => by
      have hb1 : b1 < 256 := h b1 (by simp)
      have hb2 : b2 < 256 := h b2 (by simp)
      have e1 := b64DecodeChar_b64Char (b1 / 4) (by omega)
      have e2 := b64DecodeChar_b64Char (b1 % 4 * 16 + b2 / 16) (by omega)
      have e3 := b64DecodeChar_b64Char (b2 % 16 * 4) (by omega)
      simp [b64EncodeRec, b64DecodeRec, e1, e2, e3]
      omega
  | b1 :: b2 :: b3 :: rest, h => by
      have hb1 : b1 < 256 := h b1 (by simp)
      have hb2 : b2 < 256 := h b2 (by simp)
      have hb3 : b3 < 256 := h b3 (by simp)
      have ih := b64_decode_encode rest (fun b hb => h b (by simp [hb]))
      have e1 := b64DecodeChar_b64Char (b1 / 4) (by omega)
      have e2 := b64DecodeChar_b64Char (b1 % 4 * 16 + b2 / 16) (by omega)
      have e3 := b64DecodeChar_b64Char (b2 % 16 * 4 + b3 / 64) (by omega)
      have e4 := b64DecodeChar_b64Char (b3 % 64) (by omega)
      simp [b64EncodeRec, b64DecodeRec, e1, e2, e3, e4, ih]
      omega

theorem hexVal_hexDigit : ∀ n < 16, hexVal (hexDigit n) = some n := by decide

theorem isHexUpper_hexDigit : ∀ n < 16, isHexUpper (hexDigit n) = true := by decide

theorem isAlnum37 : isAsciiAlphanumeric 37 = false := by decide

theorem percentDecode_cons_alnum (c : Char) (rest : List Char)
    (h : isAsciiAlphanumeric c.toNat = true) :
    percentDecode (c :: rest) = (percentDecode rest).map (c.toNat :: ·) := by
  cases rest with
  | nil => simp [percentDecode, h]
  | cons d tail => cases tail <;> simp [percentDecode, h]

theorem percentDecode_cons_escape (c1 c2 : Char) (rest : List Char) :
    percentDecode ('%' :: c1 :: c2 :: rest) =
      (hexVal c1).bind fun h1 =>
      (hexVal c2).bind fun h2 =>
      (percentDecode rest).map ((h1 * 16 + h2) :: ·) := by
  rw [percentDecode]
  simp [isAlnum37]

theorem wellFormedPercent_cons_alnum (c : Char) (rest : List Char)
    (h : isAsciiAlphanumeric c.toNat = true) :
    wellFormedPercent (c :: rest) = wellFormedPercent rest := by
  cases rest with
  | nil => simp [wellFormedPercent, h]
  | cons d tail => cases tail <;> simp [wellFormedPercent, h]

theorem wellFormedPercent_cons_escape (c1 c2 : Char) (rest : List Char) :
    wellFormedPercent ('%' :: c1 :: c2 :: rest) =
      (isHexUpper c1 && isHexUpper c2 && wellFormedPercent rest) := by
  rw [wellFormedPercent]
  simp [isAlnum37]

theorem percent_decode_encode :
    ∀ (l : List Nat), (∀ b ∈ l, b < 256) → percentDecode (percentEncodeList l) = some l
  | [], _ => by simp [percentEncodeList, percentDecode]
  | b :: rest, h => by
      have hb : b < 256 := h b (by simp)
      have ih : percentDecode (rest.flatMap percentEncodeByte) = some rest :=
        percent_decode_encode rest (fun x hx => h x (by simp [hx]))
      have htn := toNat_ofNat256 b hb
      by_cases hal : isAsciiAlphanumeric b = true
      · rw [percentEncodeList, List.flatMap_cons, percentEncodeByte, if_pos hal,
            List.singleton_append, percentDecode_cons_alnum _ _ (by rw [htn]; exact hal),
            ih, htn]
        rfl
      · have hal2 : isAsciiAlphanumeric b = false := by simpa using hal
        rw [percentEncodeList, List.flatMap_cons, percentEncodeByte, if_neg (by simp [hal2]),
            List.cons_append, List.cons_append, List.cons_append, List.nil_append,
            percentDecode_cons_escape,
            hexVal_hexDigit (b / 16) (by omega), hexVal_hexDigit (b % 16) (by omega)]
        simp [ih]
        omega

theorem wellFormed_percentEncodeList :
    ∀ (l : List Nat), (∀ b ∈ l, b < 256) → wellFormedPercent (percentEncodeList l) = true
  | [], _ => by simp [percentEncodeList, wellFormedPercent]
  | b :: rest, h => by
      have hb : b < 256 := h b (by simp)
      have ih : wellFormedPercent (rest.flatMap percentEncodeByte) = true :=
        wellFormed_percentEncodeList rest (fun x hx => h x (by simp [hx]))
      have htn := toNat_ofNat256 b hb
      by_cases hal : isAsciiAlphanumeric b = true
      · rw [percentEncodeList, List.flatMap_cons, percentEncodeByte, if_pos hal,
            List.singleton_append, wellFormedPercent_cons_alnum _ _ (by rw [htn]; exact hal)]
        exact ih
      · have hal2 : isAsciiAlphanumeric b = false := by simpa using hal
        rw [percentEncodeList, List.flatMap_cons, percentEncodeByte, if_neg (by simp [hal2]),
            List.cons_append, List.cons_append, List.cons_append, List.nil_append,
            wellFormedPercent_cons_escape]
        simp [ih, isHexUpper_hexDigit (b / 16) (by omega), isHexUpper_hexDigit (b % 16) (by omega)]

theorem afterFirstComma_append (xs ys : List Char) (h : ',' ∉ xs) :
    afterFirstComma (xs ++ ',' :: ys) = ys := by
  induction xs with
  | nil => simp [afterFirstComma]
  | cons c rest ih =>
      have hc : ¬ (c = ',') := by intro hh; exact h (by simp [hh])
      have hr : ',' ∉ rest := fun hm => h (by simp [hm])
      simp [afterFirstComma, hc, ih hr]

theorem beforeFirstComma_append (xs ys : List Char) (h : ',' ∉ xs) :
    beforeFirstComma (xs ++ ',' :: ys) = xs := by
  induction xs with
  | nil => simp [beforeFirstComma]
  | cons c rest ih =>
      have hc : ¬ (c = ',') := by intro hh; exact h (by simp [hh])
      have hr : ',' ∉ rest := fun hm => h (by simp [hm])
      simp [beforeFirstComma, hc, ih hr]

theorem comma_data : (",").data = [','] := rfl

theorem to_string_data (u : DataUrl) :
    u.to_string.data =
      "data:".data ++ u.media_type.data ++
        (if u.base64_encoded then ";base64" else "").data ++ ",".data ++ payloadChars u := by
  simp [DataUrl.to_string, String.data_append]

theorem comma_in_render_head (u : DataUrl) (hmt : ',' ∉ u.media_type.data) :
    ',' ∉ "data:".data ++ u.media_type.data ++
      (if u.base64_encoded then ";base64" else "").data := by
  intro hc
  rcases List.mem_append.mp hc with hc1 | hc2
  · rcases List.mem_append.mp hc1 with hc3 | hc4
    · exact absurd hc3 (by decide)
    · exact hmt hc4
  · cases hb : u.base64_encoded <;> simp [hb] at hc2

theorem payloadPart_to_string (u : DataUrl) (hmt : ',' ∉ u.media_type.data) :
    payloadPart u.to_string = payloadChars u := by
  have h1 := to_string_data u
  have h2 := comma_in_render_head u hmt
  rw [payloadPart, h1]
  have h3 : "data:".data ++ u.media_type.data ++
        (if u.base64_encoded then ";base64" else "").data ++ ",".data ++ payloadChars u =
      ("data:".data ++ u.media_type.data ++
        (if u.base64_encoded then ";base64" else "").data) ++ ',' :: payloadChars u := by
    simp [comma_data]
  rw [h3, afterFirstComma_append _ _ h2]

/-! ### Claim theorems -/

/-- C1, counterexample: the claim as stated quantifies over every `DataUrl`,
but `DataUrl::new` performs no validation, so a media type containing a comma
shifts the first comma of the rendered string and the text after the first
comma is no longer the base64 payload.  For `DataUrl::new("a,b", vec![], true)`
the rendered string is `"data:a,b;base64,"`, whose text after the first comma
is `"b;base64,"` rather than the empty payload. -/
theorem base64_payload_first_comma_cex :
    ¬ (payloadPart (DataUrl.new "a,b" [] true).to_string =
          b64EncodeRec (DataUrl.new "a,b" [] true).data ∧
        b64DecodeRec (payloadPart (DataUrl.new "a,b" [] true).to_string) =
          some (DataUrl.new "a,b" [] true).data) := by
  decide

/-- C1, amended (restricted to comma-free media types, which the
counterexample forces): for every `DataUrl` with `base64_encoded = true`, byte
values below 256 and a media type containing no comma, the payload part of the
rendered string (the text after the first comma) is the data encoded with the
URL-safe base64 alphabet with padding stripped, and decoding that payload with
the URL-safe alphabet (no padding) yields exactly the data back. -/
theorem base64_payload_roundtrip (u : DataUrl) (hflag : u.base64_encoded = true)
    (hbytes : ∀ b ∈ u.data, b < 256) (hmt : ',' ∉ u.media_type.data) :
    payloadPart u.to_string = b64EncodeRec u.data ∧
    b64DecodeRec (payloadPart u.to_string) = some u.data := by
  have hp : payloadPart u.to_string = payloadChars u := payloadPart_to_string u hmt
  have hpc : payloadChars u = b64EncodeRec u.data := by simp [payloadChars, hflag]
  refine ⟨hp.trans hpc, ?_⟩
  rw [hp, hpc]
  exact b64_decode_encode u.data hbytes

/-- C1, witness. -/
theorem base64_payload_roundtrip_witness :
    payloadPart (DataUrl.new "text/plain" (strBytes "Hello, World!") true).to_string =
      b64EncodeRec (DataUrl.new "text/plain" (strBytes "Hello, World!") true).data ∧
    b64DecodeRec
        (payloadPart (DataUrl.new "text/plain" (strBytes "Hello, World!") true).to_string) =
      some (DataUrl.new "text/plain" (strBytes "Hello, World!") true).data :=
  base64_payload_roundtrip (DataUrl.new "text/plain" (strBytes "Hello, World!") true)
    rfl (by decide) (by decide)

/-- C2: for every `DataUrl`, the rendered string equals the concatenation
`"data:" + media_type + suffix + "," + payload`, where the suffix is exactly
`";base64"` when `base64_encoded` is true and empty when it is false. -/
theorem render_concatenation (u : DataUrl) :
    u.to_string =
      "data:" ++ u.media_type ++ (if u.base64_encoded then ";base64" else "") ++ "," ++
        String.mk (payloadChars u) := rfl

/-- C3: for every `DataUrl` with `base64_encoded = false` and byte values below
256, the payload is the byte-wise percent-encoding of the data, every payload
character is ASCII alphanumeric or part of a `%XX` escape, every byte that is
not ASCII alphanumeric is escaped as `%XX`, and decoding the escapes yields
exactly the data back. -/
theorem percent_payload_props (u : DataUrl) (hflag : u.base64_encoded = false)
    (hbytes : ∀ b ∈ u.data, b < 256) :
    payloadChars u = percentEncodeList u.data ∧
    wellFormedPercent (payloadChars u) = true ∧
    (∀ b, b < 256 → isAsciiAlphanumeric b = false →
        percentEncodeByte b = ['%', hexDigit (b / 16), hexDigit (b % 16)]) ∧
    percentDecode (payloadChars u) = some u.data := by
  have hpc : payloadChars u = percentEncodeList u.data := by simp [payloadChars, hflag]
  refine ⟨hpc, ?_, ?_, ?_⟩
  · rw [hpc]
    exact wellFormed_percentEncodeList u.data hbytes
  · intro b _ hbna
    simp [percentEncodeByte, hbna]
  · rw [hpc]
    exact percent_decode_encode u.data hbytes

/-- C3, witness. -/
theorem percent_payload_props_witness :
    payloadChars (DataUrl.new "text/plain" (strBytes "Hello, World!") false) =
      percentEncodeList (DataUrl.new "text/plain" (strBytes "Hello, World!") false).data ∧
    wellFormedPercent (payloadChars (DataUrl.new "text/plain" (strBytes "Hello, World!") false)) =
      true ∧
    (∀ b, b < 256 → isAsciiAlphanumeric b = false →
        percentEncodeByte b = ['%', hexDigit (b / 16), hexDigit (b % 16)]) ∧
    percentDecode (payloadChars (DataUrl.new "text/plain" (strBytes "Hello, World!") false)) =
      some (DataUrl.new "text/plain" (strBytes "Hello, World!") false).data :=
  percent_payload_props (DataUrl.new "text/plain" (strBytes "Hello, World!") false)
    rfl (by decide)

/-- C4: `response_to_data_url` determines the media type from the
`Content-Type` header and falls back to exactly `"application/octet-stream"`
whenever the header is absent, the header bytes are rejected by the
header-to-text conversion, or the text is rejected by the MIME parser; that
condition never produces an error — an error result can only come from the
body read.  Quantified over the collaborator functions. -/
theorem content_type_fallback (toStr : List Nat → Option String)
    (parseMime : String → Option String) (resp : HttpResponse)
    (hfb : resp.content_type = none ∨
        (∃ bs, resp.content_type = some bs ∧ toStr bs = none) ∨
        (∃ bs s, resp.content_type = some bs ∧ toStr bs = some s ∧ parseMime s = none)) :
    (∀ bytes, resp.body = Except.ok bytes →
        response_to_data_url toStr parseMime resp =
          Except.ok (DataUrl.new "application/octet-stream" bytes true)) ∧
    (∀ e, response_to_data_url toStr parseMime resp = Except.error e →
        resp.body = Except.error e) := by
  have hnone : (resp.content_type.bind toStr).bind parseMime = none := by
    rcases hfb with h0 | ⟨bs, h1, h2⟩ | ⟨bs, s, h1, h2, h3⟩
    · simp [h0]
    · simp [h1, h2]
    · simp [h1, h2, h3]
  constructor
  · intro bytes hbody
    simp [response_to_data_url, hnone, hbody]
  · intro e he
    cases hbody : resp.body with
    | error e2 =>
        simp [response_to_data_url, hbody] at he
        simp [hbody, he]
    | ok bytes =>
        simp [response_to_data_url, hbody] at he

/-- C4, witness. -/
theorem content_type_fallback_witness :
    response_to_data_url (fun _ => none) (fun _ => none)
        { content_type := none, body := Except.ok [7] } =
      Except.ok (DataUrl.new "application/octet-stream" [7] true) :=
  (content_type_fallback (fun _ => none) (fun _ => none)
      { content_type := none, body := Except.ok [7] } (Or.inl rfl)).1 [7] rfl

/-- C5: whenever `response_to_data_url` succeeds — for any collaborator
functions — the resulting `DataUrl` has `base64_encoded = true` (the raw path
is never selected) and its data is exactly the full body bytes; and on a
response carrying `Content-Type: application/json` (with the modelled
collaborators) the media type begins with `"application/json"`. -/
theorem always_base64_policy :
    (∀ (toStr : List Nat → Option String) (parseMime : String → Option String)
        (resp : HttpResponse) (du : DataUrl),
        response_to_data_url toStr parseMime resp = Except.ok du →
        du.base64_encoded = true ∧ resp.body = Except.ok du.data) ∧
    (∀ bytes : List Nat, ∃ mt,
        response_to_data_url headerToStr parseMimeModel
            { content_type := some (strBytes "application/json"), body := Except.ok bytes } =
          Except.ok (DataUrl.new mt bytes true) ∧
        "application/json".data.isPrefixOf mt.data = true) := by
  constructor
  · intro toStr parseMime resp du hok
    cases hbody : resp.body with
    | error e =>
        simp [response_to_data_url, hbody] at hok
    | ok bytes =>
        have hrun : response_to_data_url toStr parseMime resp =
            Except.ok (DataUrl.new
              (((resp.content_type.bind toStr).bind parseMime).getD "application/octet-stream")
              bytes true) := by
          simp [response_to_data_url, hbody]
        rw [hrun] at hok
        injection hok with h
        subst h
        exact ⟨rfl, rfl⟩
  · intro bytes
    refine ⟨"application/json", ?_, by decide⟩
    have hmime : ((some (strBytes "application/json")).bind headerToStr).bind parseMimeModel =
        some "application/json" := by decide
    simp [response_to_data_url, hmime]
    rfl

/-- C5, witness. -/
theorem always_base64_policy_witness :
    ((DataUrl.new "application/octet-stream" [7] true).base64_encoded = true ∧
      (Except.ok [7] : Except ReqError (List Nat)) =
        Except.ok (DataUrl.new "application/octet-stream" [7] true).data) ∧
    (∃ mt,
        response_to_data_url headerToStr parseMimeModel
            { content_type := some (strBytes "application/json"), body := Except.ok [5] } =
          Except.ok (DataUrl.new mt [5] true) ∧
        "application/json".data.isPrefixOf mt.data = true) :=
  ⟨always_base64_policy.1 (fun _ => none) (fun _ => none)
      { content_type := none, body := Except.ok [7] }
      (DataUrl.new "application/octet-stream" [7] true) rfl,
    always_base64_policy.2 [5]⟩

/-- C6: `DataUrl::new("text/plain", b"Hello, World!", true).to_string()` equals
exactly `"data:text/plain;base64,SGVsbG8sIFdvcmxkIQ"`. -/
theorem hello_world_render :
    (DataUrl.new "text/plain" (strBytes "Hello, World!") true).to_string =
      "data:text/plain;base64,SGVsbG8sIFdvcmxkIQ" := by
  decide

/-- C7, counterexample: the claim as stated covers media types containing
commas, but for `DataUrl::new("a,b", vec![], false)` the rendered string is
`"data:a,b,"`: the text between `data:` and the first comma is `"a"` (not the
media type and suffix) and the text after the first comma is `"b,"` (not the
empty payload), so the pattern `data:<non-comma-chars>(;base64)?,<payload>`
does not describe the output. -/
theorem render_shape_comma_cex :
    ¬ ((DataUrl.new "a,b" [] false).to_string.data.take 5 = "data:".data ∧
        beforeFirstComma ((DataUrl.new "a,b" [] false).to_string.data.drop 5) =
          (DataUrl.new "a,b" [] false).media_type.data ++
            (if (DataUrl.new "a,b" [] false).base64_encoded then ";base64" else "").data ∧
        afterFirstComma ((DataUrl.new "a,b" [] false).to_string.data.drop 5) =
          payloadChars (DataUrl.new "a,b" [] false)) := by
  decide

/-- C7, amended (restricted to comma-free media types, which the
counterexample forces): for every `DataUrl` whose media type contains no
comma, the rendered output matches `data:<non-comma-chars>(;base64)?,<payload>`:
it starts with `"data:"`, the text between `"data:"` and the first comma is
the media type followed by the optional `";base64"` suffix, and the text after
the first comma is exactly the payload. -/
theorem render_shape (u : DataUrl) (hmt : ',' ∉ u.media_type.data) :
    u.to_string.data.take 5 = "data:".data ∧
    beforeFirstComma (u.to_string.data.drop 5) =
      u.media_type.data ++ (if u.base64_encoded then ";base64" else "").data ∧
    afterFirstComma (u.to_string.data.drop 5) = payloadChars u := by
  have hnc : ',' ∉ u.media_type.data ++ (if u.base64_encoded then ";base64" else "").data := by
    intro hc
    rcases List.mem_append.mp hc with hc1 | hc2
    · exact hmt hc1
    · revert hc2
      cases u.base64_encoded <;> decide
  have hdata : u.to_string.data =
      "data:".data ++
        ((u.media_type.data ++ (if u.base64_encoded then ";base64" else "").data) ++
          ',' :: payloadChars u) := by
    rw [to_string_data]
    simp [comma_data]
  refine ⟨?_, ?_, ?_⟩
  · rw [hdata, List.take_left' (by decide)]
  · rw [hdata, List.drop_left' (by decide), beforeFirstComma_append _ _ hnc]
  · rw [hdata, List.drop_left' (by decide), afterFirstComma_append _ _ hnc]

/-- C7, witness. -/
theorem render_shape_witness :
    (DataUrl.new "image/png" [0, 255] true).to_string.data.take 5 = "data:".data ∧
    beforeFirstComma ((DataUrl.new "image/png" [0, 255] true).to_string.data.drop 5) =
      (DataUrl.new "image/png" [0, 255] true).media_type.data ++
        (if (DataUrl.new "image/png" [0, 255] true).base64_encoded then ";base64" else "").data ∧
    afterFirstComma ((DataUrl.new "image/png" [0, 255] true).to_string.data.drop 5) =
      payloadChars (DataUrl.new "image/png" [0, 255] true) :=
  render_shape (DataUrl.new "image/png" [0, 255] true) (by decide)

/-- C8: rendering is a pure deterministic function of the three fields — any
two `DataUrl` values that agree on `media_type`, `base64_encoded` and `data`
render to byte-identical strings, with no dependence on hidden state. -/
theorem render_deterministic (u v : DataUrl) (h1 : u.media_type = v.media_type)
    (h2 : u.base64_encoded = v.base64_encoded) (h3 : u.data = v.data) :
    u.to_string = v.to_string := by
  cases u with
  | mk a f d =>
    cases v with
    | mk a2 f2 d2 =>
      dsimp only at h1 h2 h3
      subst h1
      subst h2
      subst h3
      rfl

/-- C8, witness. -/
theorem render_deterministic_witness :
    (DataUrl.new "text/plain" [72] true).to_string =
      (DataUrl.new "text/plain" [72] true).to_string :=
  render_deterministic (DataUrl.new "text/plain" [72] true)
    (DataUrl.new "text/plain" [72] true) rfl rfl rfl

/-- C9: for every network behaviour, collaborator functions and URL,
`url_to_data_url` behaves exactly as the composition of constructing a default
converter, fetching the URL and rendering the resulting `DataUrl`: the
rendered string on success, the same error on failure, nothing else. -/
theorem url_to_data_url_composition (toStr : List Nat → Option String)
    (parseMime : String → Option String)
    (client : String → Except ReqError HttpResponse) (url : String) :
    url_to_data_url toStr parseMime client url =
      url_to_data_url_spec toStr parseMime client url := by
  unfold url_to_data_url url_to_data_url_spec
  cases h : (GetDataUrl.new client).fetch toStr parseMime url <;> simp [h, Except.map]

/-- C10: with empty data the payload is empty under either flag — rendering
ends with the comma: `data:<media_type>;base64,` and `data:<media_type>,`. -/
theorem empty_data_render (media_type : String) :
    (DataUrl.new media_type [] true).to_string = "data:" ++ media_type ++ ";base64," ∧
    (DataUrl.new media_type [] false).to_string = "data:" ++ media_type ++ "," := by
  constructor <;>
    · apply String.ext
      simp [DataUrl.new, DataUrl.to_string, payloadChars, String.data_append,
        b64EncodeRec, percentEncodeList]
